import Mathlib

/-
Verification of the gossh remote-target layer (package rmt, file rmt.go)
against its natural-language specification.  The Go code is shallowly
embedded: structs become structures, the sftp map (a Go reference type)
becomes a heap reference, effectful session operations are parametrised by
their outcomes, and the sudo-prompt regex replacement is implemented as a
leftmost non-overlapping scan.
-/

namespace Gossh

/-- A handle to an open sftp client connection (opaque in the model). -/
abbrev Client := Nat

/-- The heap maps a map-reference to the sftp cache it denotes.  Go maps are
reference types, so `Remote.sftp` stores a reference, not the cache value. -/
abbrev Heap := Nat → List (String × Client)

/-- Embedding of `type Remote struct` from rmt.go.  `conn` is an opaque
handle to the underlying ssh connection; `sftp` is a reference to the
per-user sftp-client cache. -/
structure Remote where
  addr : String
  conn : Nat
  connuser : String
  sudopass : String
  activeuser : String
  sftp : Nat

/-- Embedding of `func (r Remote) sudo() bool`: operations must escalate
iff the active user differs from the connecting user. -/
def Remote.sudo (r : Remote) : Bool :=
  r.activeuser != r.connuser

/-- Embedding of `func (r Remote) As(user string) Remote`: value receiver,
only the `activeuser` field of the copy is replaced. -/
def Remote.As (r : Remote) (user : String) : Remote :=
  { r with activeuser := user }

/-- `As` together with the shared state it could have touched: the Go method
body performs no write to any shared structure (map or connection), so the
heap passes through unchanged. -/
def Remote.AsEffect (r : Remote) (user : String) (h : Heap) : Remote × Heap :=
  (r.As user, h)

/-- Embedding of `func (r Remote) User() string`. -/
def Remote.User (r : Remote) : String :=
  r.activeuser

/- ### The sudo-prompt scrubber (`scrubStd`, rmt.go lines 239-245) -/

/-- The literal part of the regex `\[sudo\] password for [^:]+: `. -/
def sudoPat : List Char := "[sudo] password for ".data

/-- One attempted regex match of `\[sudo\] password for [^:]+: ` anchored at
the start of `cs`: the literal, then a nonempty run of non-colon characters,
then a colon and a space.  Returns the characters after the match. -/
def matchAt (cs : List Char) : Option (List Char) :=
  if sudoPat.isPrefixOf cs then
    let rest := cs.drop sudoPat.length
    let nm := rest.takeWhile (fun c => c != ':')
    if nm.isEmpty then none
    else
      match rest.dropWhile (fun c => c != ':') with
      | ':' :: ' ' :: tl => some tl
      | _ => none
  else none

/-- Fuel-driven scan implementing `regexp.ReplaceAllString(_, "")`: leftmost
non-overlapping matches are removed, scanning resumes after each match. -/
def scanGo : Nat → List Char → List Char
  | _, [] => []
  | 0, c :: cs => c :: cs
  | fuel + 1, c :: cs =>
    match matchAt (c :: cs) with
    | some tl => scanGo fuel tl
    | none => c :: scanGo fuel cs

/-- Embedding of `sudopattern.ReplaceAllString(in, "")`: every leftmost
non-overlapping occurrence of the prompt pattern is removed. -/
def replaceScan (cs : List Char) : List Char :=
  scanGo cs.length cs

/-- Embedding of `strings.Trim(in, "\x5cn")`: all leading and all trailing
newline characters are removed. -/
def trimNL (cs : List Char) : List Char :=
  ((cs.dropWhile (fun c => c == '\n')).reverse.dropWhile (fun c => c == '\n')).reverse

/-- Embedding of `func scrubStd(in string) string` on character lists:
first the newline trim, then the pattern removal, in that order. -/
def scrubData (cs : List Char) : List Char :=
  replaceScan (trimNL cs)

/-- Embedding of `func scrubStd(in string) string`. -/
def scrubStd (s : String) : String :=
  String.mk (scrubData s.data)

/- ### Command execution (`run`, rmt.go lines 170-220) -/

/-- Embedding of `gossh.Response`: scrubbed stdout, scrubbed stderr and an
integer exit status. -/
structure Response where
  Stdout : String
  Stderr : String
  ExitStatus : Int
deriving DecidableEq

/-- Outcome of `session.Run(cmd)`, mirroring the error taxonomy of the ssh
library: success, `*ssh.ExitError` with a real exit code,
`*ssh.ExitMissingError` (process never reported a status), or any other
(transport-level) error. -/
inductive SessionRunResult where
  | ok
  | exitError (status : Int)
  | exitMissing
  | otherError (msg : String)
deriving DecidableEq

/-- What an execution of one command through a session produces: the bytes
captured on stdout and stderr, and how `session.Run` ended. -/
structure SessionOutcome where
  stdout : String
  stderr : String
  result : SessionRunResult

/-- Embedding of the sudo invocation built at rmt.go line 193:
`fmt.Sprintf("sudo -k -S -u %s bash -c \x22%s\x22", user, cmd)` — the command
is inserted verbatim (unescaped) between the double quotes. -/
def sudocmd (user cmd : String) : String :=
  "sudo -k -S -u " ++ user ++ " bash -c \"" ++ cmd ++ "\""

/-- The pure planning part of `run` (rmt.go lines 187-198): which command
string is handed to `session.Run` and which bytes are bound as the session's
stdin, as a function of the `sudo` flag and the requested `user`. -/
def runPlan (r : Remote) (cmd stdin : String) (sudoFlag : Bool) (user : String) :
    String × String :=
  if sudoFlag then
    let u := if user == "" || user == "-" then "root" else user
    (sudocmd u cmd, r.sudopass ++ "\n" ++ stdin ++ "\n")
  else
    (cmd, stdin ++ "\n")

/-- Embedding of `func (r *Remote) run(...) (gossh.Response, error)`.
`newSession` is the outcome of `r.conn.NewSession()`; on success it carries
the execution environment mapping (command, stdin) to a `SessionOutcome`.
The pair returned is (Response, error), matching the Go signature. -/
def run (r : Remote) (cmd stdin : String) (sudoFlag : Bool) (user : String)
    (newSession : Except String (String → String → SessionOutcome)) :
    Response × Option String :=
  match newSession with
  | .error e =>
    ({ Stdout := "", Stderr := "", ExitStatus := 0 },
     some ("unable to create new session: " ++ e))
  | .ok exec =>
    let p := runPlan r cmd stdin sudoFlag user
    let oc := exec p.1 p.2
    let resp : Response :=
      { Stdout := scrubStd oc.stdout, Stderr := scrubStd oc.stderr, ExitStatus := 0 }
    match oc.result with
    | .ok => ({ resp with ExitStatus := 0 }, none)
    | .exitError s => ({ resp with ExitStatus := s }, none)
    | .exitMissing => ({ resp with ExitStatus := -1 }, none)
    | .otherError m => (resp, some ("run of command failed: " ++ m))

/- ### The scp push protocol (`put`, rmt.go lines 131-159) -/

/-- Zero-padded 4-wide octal rendering of `mode`, i.e. Go's `%04o`. -/
def octPad (m : Nat) : String :=
  let ds := Nat.toDigits 8 m
  String.mk (List.replicate (4 - ds.length) '0' ++ ds)

/-- Embedding of `filepath.Base` (unix rules): empty path gives ".",
trailing slashes are stripped, an all-slash path gives "/", otherwise the
part after the last slash. -/
def base (path : String) : String :=
  if path = "" then "."
  else
    let cs := path.data.reverse.dropWhile (fun c => c == '/')
    if cs = [] then "/"
    else String.mk (cs.takeWhile (fun c => c != '/')).reverse

/-- The scp header line written at rmt.go line 146:
`fmt.Fprintf(w, "C%04o %d %s\n", mode, size, filepath.Base(path))`. -/
def putHeader (mode : Nat) (size : Int) (path : String) : String :=
  "C" ++ octPad mode ++ " " ++ toString size ++ " " ++ base path ++ "\n"

/-- Bytes of an ASCII string, used to serialise the header onto the wire. -/
def strBytes (s : String) : List Nat :=
  s.data.map Char.toNat

/-- Everything the goroutine at rmt.go lines 141-152 writes to the session's
stdin stream: header line, raw content bytes, a single 0x00 terminator. -/
def putWire (content : List Nat) (size : Int) (path : String) (mode : Nat) :
    List Nat :=
  strBytes (putHeader mode size path) ++ content ++ [0]

/-- The remote command run by `put` (rmt.go line 154):
`fmt.Sprintf("/usr/bin/scp -tr %s", path)`. -/
def scpCmd (path : String) : String :=
  "/usr/bin/scp -tr " ++ path

/-- The error text produced by each `session.Run`/`CombinedOutput` outcome,
mirroring the ssh library: `nil` on success, `Process exited with status N`
for an exit error, the fixed wait message for a missing exit status, and the
raw message otherwise. -/
def runErrText : SessionRunResult → Option String
  | .ok => none
  | .exitError s => some ("Process exited with status " ++ toString s)
  | .exitMissing => some "wait: remote command exited without exit status or exit signal"
  | .otherError m => some m

/-- Embedding of the tail of `put` (rmt.go lines 154-158): the combined
output and the way the session run ended determine the returned error —
`errors.Wrapf(err, "unable to copy content: %s", string(b))`. -/
def putRes (combined : String) (res : SessionRunResult) : Option String :=
  match runErrText res with
  | none => none
  | some e => some ("unable to copy content: " ++ combined ++ ": " ++ e)

/- ### The sftp-client cache (`sftpClient` and `Close`, rmt.go 69-103) -/

/-- Pointwise update of a heap reference. -/
def setRef (h : Heap) (i : Nat) (v : List (String × Client)) : Heap :=
  fun j => if j = i then v else h j

/-- Embedding of `func (r Remote) sftpClient() (*sftp.Client, error)`.
`newDirect` models `sftp.NewClient(r.conn)` and `newSudo` models
`suftp.NewSudoClient(r.conn, r.activeuser, r.sudopass)`; both are outcomes
of the outside world.  The cache lives in the heap behind `r.sftp`. -/
def sftpClient (r : Remote) (h : Heap)
    (newDirect : Nat → Except String Client)
    (newSudo : Nat → String → String → Except String Client) :
    Except String Client × Heap :=
  match List.lookup r.activeuser (h r.sftp) with
  | some c => (.ok c, h)
  | none =>
    let created :=
      if r.sudo then newSudo r.conn r.activeuser r.sudopass
      else newDirect r.conn
    match created with
    | .error e =>
      (.error ("could not start sftp connection for " ++ r.activeuser ++ ": " ++ e), h)
    | .ok c => (.ok c, setRef h r.sftp ((r.activeuser, c) :: h r.sftp))

/-- Embedding of `func (r Remote) Close() error`: each cached sftp client is
closed with its error discarded, and only the result of `r.conn.Close()` is
returned.  The first component records the results of the per-client close
calls (the observable effects); the second is the value `Close` returns. -/
def closeRemote (r : Remote) (h : Heap)
    (clientClose : Client → Option String)
    (connClose : Nat → Option String) :
    List (Option String) × Option String :=
  ((h r.sftp).map (fun p => clientClose p.2), connClose r.conn)

/- ### The tree-indent function `nSpaces` -/

/-- `k` copies of the two-character indent unit (space, box-drawing
vertical bar). -/
def unitRep : Nat → List Char
  | 0 => []
  | k + 1 => ' ' :: '│' :: unitRep k

/-- Modelled from the spec: the body of `nSpaces` is not under src/ (only
its test table `TestNSpaces` is).  Per spec §8: for n ≤ 0 the empty string;
for n > 0 a string of exactly n characters made of the unit " │" repeated
⌊n/2⌋ times followed by a single trailing space when n is odd. -/
def nSpaces (n : Int) : String :=
  if n ≤ 0 then ""
  else String.mk (unitRep (n.toNat / 2) ++ if n.toNat % 2 = 1 then [' '] else [])

/- ### Supporting lemmas -/

theorem matchAt_length {cs tl : List Char} (h : matchAt cs = some tl) :
    tl.length < cs.length := by
  unfold matchAt at h
  by_cases hp : sudoPat.isPrefixOf cs
  · simp only [hp, if_true] at h
    by_cases he : ((cs.drop sudoPat.length).takeWhile (fun c => c != ':')).isEmpty
    · simp [he] at h
    · simp only [he, if_false, Bool.false_eq_true] at h
      have hlen : sudoPat.length ≤ cs.length := by
        have := List.isPrefixOf_iff_prefix.mp hp
        exact this.length_le
      have hdw : ((cs.drop sudoPat.length).dropWhile (fun c => c != ':')).length
          ≤ (cs.drop sudoPat.length).length :=
        (List.dropWhile_suffix _).length_le
      rw [List.length_drop] at hdw
      revert h
      cases hd : (cs.drop sudoPat.length).dropWhile (fun c => c != ':') with
      | nil => intro h; cases h
      | cons a l =>
        cases a using Char.rec with
        | _ =>
        intro h
        split at h
        · rename_i heq
          injection h with h
          subst h
          rw [hd] at hdw
          have : sudoPat.length = 20 := by decide
          simp only [heq] at hdw
          simp only [List.length_cons] at hdw
          omega
        · cases h
  · simp [hp] at h
theorem scanGo_congr : ∀ (f g : Nat) (cs : List Char),
    cs.length ≤ f → cs.length ≤ g → scanGo f cs = scanGo g cs := by
  intro f
  induction f with
  | zero =>
    intro g cs hf _
    have : cs = [] := by
      cases cs with
      | nil => rfl
      | cons c cs' => simp at hf
    subst this
    cases g <;> rfl
  | succ f ih =>
    intro g cs hf hg
    cases cs with
    | nil => cases g <;> rfl
    | cons c cs' =>
      cases g with
      | zero => simp at hg
      | succ g' =>
        simp only [scanGo]
        cases hm : matchAt (c :: cs') with
        | some tl =>
          have hlt := matchAt_length hm
          simp only [List.length_cons] at hlt hf hg
          exact ih g' tl (by omega) (by omega)
        | none =>
          simp only [List.length_cons] at hf hg
          rw [ih g' cs' (by omega) (by omega)]

theorem replaceScan_cons (c : Char) (cs : List Char) :
    replaceScan (c :: cs) =
      match matchAt (c :: cs) with
      | some tl => replaceScan tl
      | none => c :: replaceScan cs := by
  show scanGo (cs.length + 1) (c :: cs) = _
  simp only [scanGo]
  cases hm : matchAt (c :: cs) with
  | some tl =>
    have hlt := matchAt_length hm
    simp only [List.length_cons] at hlt
    exact scanGo_congr cs.length tl.length tl (by omega) (by omega)
  | none => rfl
theorem takeWhile_colon_free (name rest : List Char) (h : ':' ∉ name) :
    (name ++ ':' :: rest).takeWhile (fun c => c != ':') = name ∧
    (name ++ ':' :: rest).dropWhile (fun c => c != ':') = ':' :: rest := by
  induction name with
  | nil => simp [List.takeWhile_cons, List.dropWhile_cons]
  | cons a t ih =>
    have ha : a ≠ ':' := by
      intro hc
      exact h (by simp [hc])
    have ht : ':' ∉ t := fun hc => h (List.mem_cons_of_mem _ hc)
    have hb : (a != ':') = true := by simp [ha]
    obtain ⟨ih1, ih2⟩ := ih ht
    constructor
    · simp only [List.cons_append, List.takeWhile_cons, hb, if_true, ih1]
    · simp only [List.cons_append, List.dropWhile_cons, hb, if_true, ih2]

theorem matchAt_prompt (name tl : List Char) (h1 : name ≠ []) (h2 : ':' ∉ name) :
    matchAt (sudoPat ++ name ++ ':' :: ' ' :: tl) = some tl := by
  unfold matchAt
  rw [List.append_assoc]
  have hp : sudoPat.isPrefixOf (sudoPat ++ (name ++ ':' :: ' ' :: tl)) = true :=
    List.isPrefixOf_iff_prefix.mpr (List.prefix_append _ _)
  rw [hp]
  simp only [if_true]
  rw [List.drop_left]
  obtain ⟨htw, hdw⟩ := takeWhile_colon_free name (' ' :: tl) h2
  rw [htw, hdw]
  have : name.isEmpty = false := by
    cases name with
    | nil => exact absurd rfl h1
    | cons a t => rfl
  rw [this]
  simp

theorem replaceScan_prompt (name tl : List Char) (h1 : name ≠ []) (h2 : ':' ∉ name) :
    replaceScan (sudoPat ++ name ++ ':' :: ' ' :: tl) = replaceScan tl := by
  have hm := matchAt_prompt name tl h1 h2
  have hshape : sudoPat ++ name ++ ':' :: ' ' :: tl
      = '[' :: ("sudo] password for ".data ++ (name ++ ':' :: ' ' :: tl)) := by
    have hs : sudoPat = '[' :: "sudo] password for ".data := by decide
    rw [hs]
    simp
  rw [hshape] at hm ⊢
  rw [replaceScan_cons, hm]

theorem dropWhile_nl_replicate (m : Nat) (t : List Char) :
    (List.replicate m '\n' ++ t).dropWhile (fun c => c == '\n')
      = t.dropWhile (fun c => c == '\n') := by
  induction m with
  | zero => simp
  | succ k ih =>
    rw [List.replicate_succ, List.cons_append, List.dropWhile_cons]
    simp [ih]

theorem trimNL_strips_all (m n : Nat) (s : List Char) (h0 : s ≠ [])
    (hh : s.head? ≠ some '\n') (hl : s.getLast? ≠ some '\n') :
    trimNL (List.replicate m '\n' ++ s ++ List.replicate n '\n') = s := by
  obtain ⟨a, t, rfl⟩ : ∃ a t, s = a :: t := by
    cases s with
    | nil => exact absurd rfl h0
    | cons a t => exact ⟨a, t, rfl⟩
  have ha : (a == '\n') = false := by
    simp only [List.head?_cons, ne_eq, Option.some.injEq] at hh
    simp [hh]
  unfold trimNL
  rw [List.append_assoc, dropWhile_nl_replicate, List.cons_append,
    List.dropWhile_cons, ha]
  simp only [Bool.false_eq_true, if_false]
  rw [show a :: (t ++ List.replicate n '\n') = (a :: t) ++ List.replicate n '\n' from rfl,
    List.reverse_append, List.reverse_replicate, dropWhile_nl_replicate]
  have hrev : ((a :: t).reverse).dropWhile (fun c => c == '\n') = (a :: t).reverse := by
    cases hr : (a :: t).reverse with
    | nil => rfl
    | cons b u =>
      have hb : (b == '\n') = false := by
        have : (a :: t).reverse.head? = (a :: t).getLast? := List.head?_reverse _
        rw [hr] at this
        simp only [List.head?_cons] at this
        have hbne : b ≠ '\n' := by
          intro hbe
          exact hl (by rw [← this, hbe])
        simp [hbne]
      rw [List.dropWhile_cons, hb]
      simp
  rw [hrev, List.reverse_reverse]

theorem unitRep_length (k : Nat) : (unitRep k).length = 2 * k := by
  induction k with
  | zero => rfl
  | succ j ih => simp [unitRep, ih]; omega

theorem lookup_none_not_key (l : List (String × Client)) (a : String)
    (h : List.lookup a l = none) : a ∉ l.map Prod.fst := by
  induction l with
  | nil => simp
  | cons p t ih =>
    obtain ⟨k, v⟩ := p
    rw [List.lookup_cons] at h
    by_cases hk : a == k
    · rw [hk] at h
      simp at h
    · simp only [Bool.not_eq_true] at hk
      rw [hk] at h
      simp only [Bool.false_eq_true, if_false] at h
      have hne : a ≠ k := by
        intro he
        subst he
        simp at hk
      simp [hne, ih h]

/- ### Claim theorems -/

/-- C2: for a run whose session starts successfully, the exit status in the
Response is 0 on clean completion, the process's real exit code on an exit
error, the sentinel -1 on a missing exit status, and any other
transport-level failure is returned as an error with the zero-value exit
status left untouched in the Response. -/
theorem C2_exit_status_derivation :
    ∀ (r : Remote) (cmd stdin : String) (sf : Bool) (user o e : String)
      (s : Int) (m : String),
      run r cmd stdin sf user (.ok fun _ _ => ⟨o, e, .ok⟩)
        = ({ Stdout := scrubStd o, Stderr := scrubStd e, ExitStatus := 0 }, none) ∧
      run r cmd stdin sf user (.ok fun _ _ => ⟨o, e, .exitError s⟩)
        = ({ Stdout := scrubStd o, Stderr := scrubStd e, ExitStatus := s }, none) ∧
      run r cmd stdin sf user (.ok fun _ _ => ⟨o, e, .exitMissing⟩)
        = ({ Stdout := scrubStd o, Stderr := scrubStd e, ExitStatus := -1 }, none) ∧
      run r cmd stdin sf user (.ok fun _ _ => ⟨o, e, .otherError m⟩)
        = ({ Stdout := scrubStd o, Stderr := scrubStd e, ExitStatus := 0 },
           some ("run of command failed: " ++ m)) :=
  fun _ _ _ _ _ _ _ _ _ => ⟨rfl, rfl, rfl, rfl⟩

/-- C6: `As` never mutates the receiver.  The returned Remote carries the
new active identity, every other field — including the shared connection
handle and the shared sftp-cache reference — is that of the receiver, no
heap cell is written, and the receiver is recovered intact by switching the
identity back. -/
theorem C6_As_is_pure :
    ∀ (r : Remote) (u : String) (h : Heap),
      (r.As u).activeuser = u ∧
      (r.As u).addr = r.addr ∧
      (r.As u).conn = r.conn ∧
      (r.As u).connuser = r.connuser ∧
      (r.As u).sudopass = r.sudopass ∧
      (r.As u).sftp = r.sftp ∧
      (r.AsEffect u h).2 = h ∧
      (r.As u).As r.activeuser = r :=
  fun _ _ _ => ⟨rfl, rfl, rfl, rfl, rfl, rfl, rfl, rfl⟩

/-- C10: the scrub is applied to the captured stdout and stderr of every
run, including non-escalated runs (sudo flag false); output that carries
outer newlines or matches the prompt pattern is altered even then; and
because trimming precedes pattern removal, a newline adjacent to a removed
occurrence survives in the result. -/
theorem C10_scrub_unconditional :
    (∀ (r : Remote) (cmd stdin user o e : String) (res : SessionRunResult),
      (run r cmd stdin false user (.ok fun _ _ => ⟨o, e, res⟩)).1.Stdout = scrubStd o ∧
      (run r cmd stdin false user (.ok fun _ _ => ⟨o, e, res⟩)).1.Stderr = scrubStd e) ∧
    scrubStd "\nhello\n" = "hello" ∧
    ("hello" : String) ≠ "\nhello\n" ∧
    scrubStd "x [sudo] password for u: y" = "x y" ∧
    scrubStd "a\n[sudo] password for u: b" = "a\nb" ∧
    ("a\nb" : String) ≠ "ab" := by
  refine ⟨?_, by decide, by decide, by decide, by decide, by decide⟩
  intro r cmd stdin user o e res
  cases res <;> exact ⟨rfl, rfl⟩

/-- C9: the escalated invocation string is the plain concatenation
`sudo -k -S -u <u> bash -c "<cmd>"` with the command inserted verbatim and
unescaped between the double quotes, so every double quote of the command
survives into the executed string (quote count 2 + quotes(u) + quotes(cmd)),
changing the structure of the shell command. -/
theorem C9_sudocmd_verbatim :
    (∀ u cmd : String,
      sudocmd u cmd = "sudo -k -S -u " ++ u ++ " bash -c \"" ++ cmd ++ "\"") ∧
    (∀ u cmd : String,
      (sudocmd u cmd).data.count '"'
        = u.data.count '"' + cmd.data.count '"' + 2) ∧
    (sudocmd "root" "echo \"hi\"").data.count '"' = 4 ∧
    (sudocmd "root" "echo hi").data.count '"' = 2 := by
  refine ⟨fun _ _ => rfl, ?_, by decide, by decide⟩
  intro u cmd
  show ("sudo -k -S -u " ++ u ++ " bash -c \"" ++ cmd ++ "\"").data.count '"' = _
  rw [String.data_append, String.data_append, String.data_append,
    String.data_append]
  simp only [List.count_append]
  have h1 : ("sudo -k -S -u ").data.count '"' = 0 := by decide
  have h2 : (" bash -c \"").data.count '"' = 1 := by decide
  have h3 : ("\"").data.count '"' = 1 := by decide
  rw [h1, h2, h3]
  omega

/-- C5 counterexample: scrub does not remove exactly one prompt occurrence
nor strip exactly one newline pair — at these inputs it removes both
occurrences and strips both pairs. -/
theorem C5_counterexample :
    scrubStd "\n\nx\n\n" = "x" ∧
    ("x" : String) ≠ "\nx\n" ∧
    scrubStd "[sudo] password for a: [sudo] password for b: x" = "x" ∧
    ("x" : String) ≠ "[sudo] password for b: x" ∧
    ("x" : String) ≠ "[sudo] password for a: x" :=
  ⟨by decide, by decide, by decide, by decide, by decide⟩

/-- C5 (amended): scrub strips ALL leading and trailing newlines (not just
one pair) and removes EVERY leftmost non-overlapping occurrence of the
prompt pattern (not just one), independent of the identity string content;
on the spec's example it yields `done`. -/
theorem C5_scrub_all_occurrences :
    (∀ (m n : Nat) (s : List Char), s ≠ [] → s.head? ≠ some '\n' →
      s.getLast? ≠ some '\n' →
      scrubData (List.replicate m '\n' ++ s ++ List.replicate n '\n')
        = replaceScan s) ∧
    (∀ (name tl : List Char), name ≠ [] → ':' ∉ name →
      replaceScan (sudoPat ++ name ++ ':' :: ' ' :: tl) = replaceScan tl) ∧
    scrubStd "[sudo] password for alice: done\n" = "done" := by
  refine ⟨?_, replaceScan_prompt, by decide⟩
  intro m n s h0 hh hl
  unfold scrubData
  rw [trimNL_strips_all m n s h0 hh hl]

/-- C5 witness: the amended scrub theorem applied at concrete inputs. -/
theorem C5_scrub_all_occurrences_witness :
    scrubData (List.replicate 2 '\n' ++ ['x'] ++ List.replicate 3 '\n') = ['x'] ∧
    replaceScan (sudoPat ++ ['a'] ++ ':' :: ' ' :: ['x']) = ['x'] := by
  constructor
  · rw [C5_scrub_all_occurrences.1 2 3 ['x'] (by decide) (by decide) (by decide)]
    decide
  · rw [C5_scrub_all_occurrences.2.1 ['a'] ['x'] (by decide) (by decide)]
    decide

/-- C7: (spec-modelled nSpaces) for n ≤ 0 the empty string; for n > 0 a
string of exactly n characters, ⌊n/2⌋ copies of the unit followed by a
trailing space when n is odd; agrees with every row of the TestNSpaces
table in src. -/
theorem C7_nSpaces_shape :
    (∀ n : Int, n ≤ 0 → nSpaces n = "") ∧
    (∀ n : Int, 0 < n →
      (nSpaces n).data.length = n.toNat ∧
      (nSpaces n).data
        = unitRep (n.toNat / 2) ++ (if n.toNat % 2 = 1 then [' '] else [])) ∧
    (nSpaces (-9) = "" ∧ nSpaces (-2) = "" ∧ nSpaces (-1) = "" ∧
     nSpaces 0 = "" ∧ nSpaces 1 = " " ∧ nSpaces 2 = " │" ∧
     nSpaces 9 = " │ │ │ │ ") := by
  refine ⟨?_, ?_, by decide⟩
  · intro n hn
    unfold nSpaces
    rw [if_pos hn]
  · intro n hn
    have hnot : ¬ n ≤ 0 := by omega
    unfold nSpaces
    rw [if_neg hnot]
    refine ⟨?_, rfl⟩
    have hlen := unitRep_length (n.toNat / 2)
    have hdm := Nat.div_add_mod n.toNat 2
    by_cases hp : n.toNat % 2 = 1
    · simp [hp, List.length_append, hlen]
      omega
    · simp [hp, List.length_append, hlen]
      omega

/-- C7 witness: the nSpaces theorem applied at concrete inputs. -/
theorem C7_nSpaces_shape_witness :
    nSpaces (-5) = "" ∧ (nSpaces 7).data.length = 7 := by
  constructor
  · exact C7_nSpaces_shape.1 (-5) (by decide)
  · have h := (C7_nSpaces_shape.2.1 7 (by decide)).1
    simpa using h

/-- C1 counterexample: when the requested identity equals the connection
identity, the stdin bound to the session is NOT the given stdin — a newline
terminator is appended (`strings.NewReader(stdin + "\x5cn")`). -/
theorem C1_counterexample :
    runPlan ⟨"host:22", 0, "alice", "pw", "alice", 0⟩ "wc -c" "abc"
        (Remote.sudo ⟨"host:22", 0, "alice", "pw", "alice", 0⟩)
        (Remote.User ⟨"host:22", 0, "alice", "pw", "alice", 0⟩)
      = ("wc -c", "abc\n") ∧
    ("abc\n" : String) ≠ "abc" :=
  ⟨by decide, by decide⟩

/-- C1 (amended): with the sudo flag and requested user the code derives
from the active identity, a run under the connection identity executes the
command unmodified with the given stdin newline-terminated; otherwise the
command is the escalation invocation `sudo -k -S -u <u> bash -c "<cmd>"`
with empty or `-` identities resolved to `root`, and the stdin is the
secret line followed by the caller's stdin, each newline-terminated. -/
theorem C1_run_plan :
    ∀ (r : Remote) (cmd stdin : String),
      runPlan r cmd stdin r.sudo r.activeuser =
        if r.activeuser = r.connuser then
          (cmd, stdin ++ "\n")
        else
          ("sudo -k -S -u "
             ++ (if r.activeuser = "" ∨ r.activeuser = "-" then "root"
                 else r.activeuser)
             ++ " bash -c \"" ++ cmd ++ "\"",
           r.sudopass ++ "\n" ++ stdin ++ "\n") := by
  intro r cmd stdin
  unfold runPlan Remote.sudo sudocmd
  by_cases h : r.activeuser = r.connuser
  · simp [h]
  · have hb : (r.activeuser != r.connuser) = true := by
      simp [bne_iff_ne, h]
    rw [hb, if_neg h]
    simp only [if_true]
    by_cases h1 : r.activeuser = ""
    · simp [h1]
    · by_cases h2 : r.activeuser = "-"
      · simp [h1, h2]
      · simp [h1, h2]

/-- C3: the push writes header `C<mode octal, 4 digits> <L> <basename>`
then the L content bytes then one 0x00, runs `/usr/bin/scp -tr <path>`
remotely, succeeds iff the session run ended cleanly, and surfaces the
combined output verbatim in the error otherwise; the 5-byte x.txt example
gives exactly `C0644 5 x.txt` and a line feed. -/
theorem C3_push_protocol :
    (∀ (content : List Nat) (path : String) (mode : Nat),
      putWire content (content.length : Int) path mode
        = strBytes (putHeader mode (content.length : Int) path)
            ++ content ++ [0]) ∧
    putHeader 0o644 5 "x.txt" = "C0644 5 x.txt\n" ∧
    putWire [104, 101, 108, 108, 111] 5 "/tmp/x.txt" 0o644
      = strBytes "C0644 5 x.txt\n" ++ [104, 101, 108, 108, 111] ++ [0] ∧
    scpCmd "/tmp/x.txt" = "/usr/bin/scp -tr /tmp/x.txt" ∧
    (∀ combined : String, putRes combined .ok = none) ∧
    (∀ (combined : String) (s : Int),
      putRes combined (.exitError s)
        = some ("unable to copy content: " ++ combined ++ ": "
            ++ ("Process exited with status " ++ toString s))) ∧
    (∀ combined : String,
      putRes combined .exitMissing
        = some ("unable to copy content: " ++ combined ++ ": "
            ++ "wait: remote command exited without exit status or exit signal")) ∧
    (∀ combined m : String,
      putRes combined (.otherError m)
        = some ("unable to copy content: " ++ combined ++ ": " ++ m)) :=
  ⟨fun _ _ _ => rfl, by decide, by decide, by decide,
   fun _ => rfl, fun _ _ => rfl, fun _ => rfl, fun _ _ => rfl⟩

/-- C8 counterexample: `Close` discards the error of a failing cached-client
close — the per-client close produced an error, yet Close returns nil
because only the connection close result is returned. -/
theorem C8_counterexample :
    closeRemote ⟨"host:22", 0, "alice", "pw", "alice", 0⟩
        (fun j => if j = 0 then [("root", 1)] else [])
        (fun _ => some "close failed") (fun _ => none)
      = ([some "close failed"], none) ∧
    (none : Option String) ≠ some "close failed" :=
  ⟨rfl, by decide⟩

/-- C8 (amended): run surfaces session-creation failures and the push
surfaces its combined-output failure, but Close returns only the transport
connection's close error, discarding every cached-client close error. -/
theorem C8_error_surfacing :
    (∀ (r : Remote) (h : Heap) (clientClose : Client → Option String)
        (connClose : Nat → Option String),
      (closeRemote r h clientClose connClose).2 = connClose r.conn) ∧
    (∀ (r : Remote) (cmd stdin : String) (sf : Bool) (user msg : String),
      (run r cmd stdin sf user (.error msg)).2
        = some ("unable to create new session: " ++ msg)) ∧
    (∀ combined m : String,
      putRes combined (.otherError m)
        ≠ none) :=
  ⟨fun _ _ _ _ => rfl, fun _ _ _ _ _ _ => rfl, fun _ _ => by simp [putRes, runErrText]⟩

theorem sftpClient_hit (r : Remote) (h : Heap)
    (nd : Nat → Except String Client)
    (ns : Nat → String → String → Except String Client) (c : Client)
    (hl : List.lookup r.activeuser (h r.sftp) = some c) :
    sftpClient r h nd ns = (.ok c, h) := by
  unfold sftpClient
  rw [hl]

theorem sftpClient_miss (r : Remote) (h : Heap)
    (nd : Nat → Except String Client)
    (ns : Nat → String → String → Except String Client) (c : Client)
    (hl : List.lookup r.activeuser (h r.sftp) = none)
    (hc : (if r.sudo then ns r.conn r.activeuser r.sudopass
           else nd r.conn) = .ok c) :
    sftpClient r h nd ns
      = (.ok c, setRef h r.sftp ((r.activeuser, c) :: h r.sftp)) := by
  unfold sftpClient
  rw [hl]
  simp only [hc]

/-- C4: the sftp-session cache — a hit returns the cached client unchanged;
a miss creates exactly one client, directly iff the active identity equals
the connection identity, stores it keyed by the active identity (touching
no other heap cell), and a subsequent lookup reuses it; key uniqueness (at
most one session per identity) is preserved; Close closes every cached
client. -/
theorem C4_sftp_cache :
    (∀ (r : Remote) (h : Heap) (nd : Nat → Except String Client)
        (ns : Nat → String → String → Except String Client) (c : Client),
      List.lookup r.activeuser (h r.sftp) = some c →
      sftpClient r h nd ns = (.ok c, h)) ∧
    (∀ (r : Remote) (h : Heap) (nd : Nat → Except String Client)
        (ns : Nat → String → String → Except String Client) (c : Client),
      List.lookup r.activeuser (h r.sftp) = none →
      r.activeuser = r.connuser →
      nd r.conn = .ok c →
      sftpClient r h nd ns
        = (.ok c, setRef h r.sftp ((r.activeuser, c) :: h r.sftp))) ∧
    (∀ (r : Remote) (h : Heap) (nd : Nat → Except String Client)
        (ns : Nat → String → String → Except String Client) (c : Client),
      List.lookup r.activeuser (h r.sftp) = none →
      r.activeuser ≠ r.connuser →
      ns r.conn r.activeuser r.sudopass = .ok c →
      sftpClient r h nd ns
        = (.ok c, setRef h r.sftp ((r.activeuser, c) :: h r.sftp))) ∧
    (∀ (r : Remote) (h : Heap) (nd : Nat → Except String Client)
        (ns : Nat → String → String → Except String Client) (j : Nat),
      j ≠ r.sftp → (sftpClient r h nd ns).2 j = h j) ∧
    (∀ (r : Remote) (h : Heap) (nd : Nat → Except String Client)
        (ns : Nat → String → String → Except String Client),
      ((h r.sftp).map Prod.fst).Nodup →
      (((sftpClient r h nd ns).2 r.sftp).map Prod.fst).Nodup) ∧
    (∀ (r : Remote) (h : Heap) (nd : Nat → Except String Client)
        (ns : Nat → String → String → Except String Client) (c : Client),
      List.lookup r.activeuser (h r.sftp) = none →
      (if r.sudo then ns r.conn r.activeuser r.sudopass
       else nd r.conn) = .ok c →
      sftpClient r ((sftpClient r h nd ns).2) nd ns
        = (.ok c, (sftpClient r h nd ns).2)) ∧
    (∀ (r : Remote) (h : Heap) (clientClose : Client → Option String)
        (connClose : Nat → Option String) (u : String) (c : Client),
      (u, c) ∈ h r.sftp →
      clientClose c ∈ (closeRemote r h clientClose connClose).1) := by
  refine ⟨sftpClient_hit, ?_, ?_, ?_, ?_, ?_, ?_⟩
  · intro r h nd ns c hl heq hok
    have hs : r.sudo = false := by
      simp [Remote.sudo, heq]
    exact sftpClient_miss r h nd ns c hl (by rw [hs, if_neg]; exact hok; simp)
  · intro r h nd ns c hl hne hok
    have hs : r.sudo = true := by
      simp [Remote.sudo, bne_iff_ne, hne]
    exact sftpClient_miss r h nd ns c hl (by rw [hs, if_pos]; exact hok; trivial)
  · intro r h nd ns j hj
    unfold sftpClient
    cases hl : List.lookup r.activeuser (h r.sftp) with
    | some c => rfl
    | none =>
      cases hc : (if r.sudo then ns r.conn r.activeuser r.sudopass
          else nd r.conn) with
      | error e => rfl
      | ok c =>
        show setRef h r.sftp _ j = h j
        unfold setRef
        rw [if_neg hj]
  · intro r h nd ns hnd
    unfold sftpClient
    cases hl : List.lookup r.activeuser (h r.sftp) with
    | some c => exact hnd
    | none =>
      cases hc : (if r.sudo then ns r.conn r.activeuser r.sudopass
          else nd r.conn) with
      | error e => exact hnd
      | ok c =>
        show (((setRef h r.sftp ((r.activeuser, c) :: h r.sftp)) r.sftp).map
          Prod.fst).Nodup
        unfold setRef
        rw [if_pos rfl]
        simp only [List.map_cons, List.nodup_cons]
        exact ⟨lookup_none_not_key _ _ hl, hnd⟩
  · intro r h nd ns c hl hok
    rw [sftpClient_miss r h nd ns c hl hok]
    refine sftpClient_hit r _ nd ns c ?_
    show List.lookup r.activeuser
      ((setRef h r.sftp ((r.activeuser, c) :: h r.sftp)) r.sftp) = some c
    unfold setRef
    rw [if_pos rfl, List.lookup_cons]
    simp
  · intro r h clientClose connClose u c hmem
    show clientClose c ∈ (h r.sftp).map (fun p => clientClose p.2)
    exact List.mem_map_of_mem _ hmem

/-- C4 witness: the cache theorem applied at a concrete Remote whose active
identity differs from the connection identity: creation goes through the
escalated constructor, the client is stored under the active identity, and
the second call reuses it. -/
theorem C4_sftp_cache_witness :
    sftpClient ⟨"host:22", 0, "alice", "pw", "root", 0⟩ (fun _ => [])
        (fun _ => .error "unused") (fun _ _ _ => .ok 7)
      = (.ok 7, setRef (fun _ => []) 0 [("root", 7)]) ∧
    sftpClient ⟨"host:22", 0, "alice", "pw", "root", 0⟩
        (setRef (fun _ => []) 0 [("root", 7)])
        (fun _ => .error "unused") (fun _ _ _ => .ok 7)
      = (.ok 7, setRef (fun _ => []) 0 [("root", 7)]) := by
  constructor
  · exact C4_sftp_cache.2.2.1 ⟨"host:22", 0, "alice", "pw", "root", 0⟩
      (fun _ => []) (fun _ => .error "unused") (fun _ _ _ => .ok 7) 7
      rfl (by decide) rfl
  · exact C4_sftp_cache.1 ⟨"host:22", 0, "alice", "pw", "root", 0⟩
      (setRef (fun _ => []) 0 [("root", 7)])
      (fun _ => .error "unused") (fun _ _ _ => .ok 7) 7 rfl

end Gossh
